/-
Verification of the result-normalization and multi-model aggregation layer
of the Musicly OCR repository (src/ocr_utils.py), as a shallow embedding.

Modelling conventions:
* Python floats are idealized as rationals (`Rat`); `round(x, 3)` is modelled
  as round-half-to-even at three decimal places, which is Python's documented
  rounding mode.
* The external PaddleOCR engine, `os.path.exists`, and PIL image validation
  are opaque collaborators, bundled into an `Env` record; an engine invocation
  that raises is an `Except.error`.
* A raw engine result (`ocr_result`) is a list whose elements are either
  `None` or lists of detection lines; only the first element is consumed,
  exactly as in `_process_ocr_results`.
* A detection line with at least two sub-fields is `RawLine.valid bbox info`
  (the code only reads `line[0]` and `line[1]`); a line with fewer than two
  sub-fields is `RawLine.malformed` and is skipped by the code.
* `np.max`/`np.min` on an empty polygon raise in Python; the normalizer is
  therefore fallible (`Except Unit`), and that failure is caught by the
  per-language handler in `process_image`, like any other exception.
* CPython's `dict` preserves insertion order, so `list(self.ocr_models.keys())`
  and the grouping dict are modelled with order-preserving first-occurrence
  folds.  CPython's `set` iteration order is unspecified, so the embedding
  fixes first-occurrence order for `list(set(...))` and all statements about
  `languages_detected` are set-level (membership) statements.
-/
import Mathlib

deriving instance DecidableEq for Except

/-- A planar point, one vertex of a detection polygon. -/
structure Point where
  x : Rat
  y : Rat
deriving Repr, DecidableEq

/-- `line[1]` in a raw detection: either a `(text, confidence)` tuple with at
least two components, or any other value, which the code stringifies
(`str(text_info)`) and pairs with confidence 1.0. -/
inductive TextInfo where
  | pair (text : String) (confidence : Rat)
  | bare (asString : String)
deriving Repr, DecidableEq

/-- One raw detection line.  `valid bbox info` models a line with
`len(line) >= 2`, of which the code reads `line[0]` (the polygon) and
`line[1]` (the text info); `malformed` models a line with fewer than two
sub-fields, which the code skips. -/
inductive RawLine where
  | valid (bbox : List Point) (info : TextInfo)
  | malformed
deriving Repr, DecidableEq

/-- A raw engine result: `ocr_result` is a list whose entries are `None` or
lists of lines. -/
abbrev RawResult := List (Option (List RawLine))

/-- The normalized detection record built by `_process_ocr_results`. -/
structure DetectionRecord where
  text : String
  confidence : Rat
  language : String
  bbox : List Point
  center : Rat × Rat
  dimensions : Rat × Rat
deriving Repr, DecidableEq

/-- The exceptions `process_image` raises itself:
`FileNotFoundError`, `ValueError` (invalid image), and `ValueError`
(language not initialized, carrying the available codes). -/
inductive OCRError where
  | fileNotFound (path : String)
  | invalidImage (path : String)
  | languageNotInitialized (lang : String) (available : List String)
deriving Repr, DecidableEq

/-- The opaque collaborators of `OCRProcessor`: the filesystem existence
check, PIL-based image validation, and the per-language engine invocation
`self.ocr_models[lang].ocr(image_path, cls=True)` (an `Except.error` models a
raised exception). -/
structure Env where
  path_exists : String → Bool
  is_valid_image : String → Bool
  engine : String → String → Except Unit RawResult

/-- The dictionary returned by `get_detailed_results`.  The
`results_by_language` key is absent from the canonical empty dictionary, so
it is modelled as an `Option`: `none` means the key is absent. -/
structure DetailedResults where
  text_count : Nat
  languages_detected : List String
  average_confidence : Rat
  results : List DetectionRecord
  results_by_language : Option (List (String × List DetectionRecord))
  summary : String
deriving Repr, DecidableEq

/-- Maximum of a nonempty list, given as head and tail (models `np.max`). -/
def list_max (a : Rat) (l : List Rat) : Rat :=
  l.foldl max a

/-- Minimum of a nonempty list, given as head and tail (models `np.min`). -/
def list_min (a : Rat) (l : List Rat) : Rat :=
  l.foldl min a

/-- Insert a key at the end unless already present (one `dict` insertion). -/
def insert_key (ks : List String) (k : String) : List String :=
  if k ∈ ks then ks else ks ++ [k]

/-- The keys of a CPython `dict` populated in order from `l`, i.e. the
distinct elements of `l` in first-occurrence order. -/
def first_occurrences (l : List String) : List String :=
  l.foldl insert_key []

/-- Round a rational to the nearest integer, ties to even (Python `round`). -/
def round_half_even (q : Rat) : Int :=
  let f : Int := ⌊q⌋
  let r : Rat := q - (f : Rat)
  if r < 1/2 then f
  else if 1/2 < r then f + 1
  else if f % 2 = 0 then f else f + 1

/-- Python `round(q, 3)` on the rational idealization. -/
def py_round3 (q : Rat) : Rat :=
  (round_half_even (q * 1000) : Rat) / 1000

/-- Python `f"{q:.1%}"` on the rational idealization: percentage with one
decimal digit, rounded half to even. -/
def format_pct1 (q : Rat) : String :=
  let n : Int := round_half_even (q * 1000)
  let sgn : String := if n < 0 then "-" else ""
  let m : Nat := n.natAbs
  sgn ++ toString (m / 10) ++ "." ++ toString (m % 10) ++ "%"

/-- Normalize one raw detection line (`_process_ocr_results` loop body):
a `malformed` line (fewer than 2 sub-fields) yields no record; a `valid`
line yields a record with the mean-center and the axis-aligned extents of
the polygon, except that an empty polygon makes `np.max` raise, modelled as
`Except.error`. -/
def process_line (language : String) : RawLine → Except Unit (Option DetectionRecord)
  | .malformed => .ok none
  | .valid bbox info =>
    let text := match info with
      | .pair t _ => t
      | .bare s => s
    let confidence : Rat := match info with
      | .pair _ c => c
      | .bare _ => 1
    match bbox with
    | [] => .error ()
    | p :: ps =>
      let xs := (p :: ps).map Point.x
      let ys := (p :: ps).map Point.y
      let n : Rat := (bbox.length : Rat)
      .ok (some {
        text := text
        confidence := confidence
        language := language
        bbox := bbox
        center := (xs.sum / n, ys.sum / n)
        dimensions := (list_max p.x (ps.map Point.x) - list_min p.x (ps.map Point.x),
                       list_max p.y (ps.map Point.y) - list_min p.y (ps.map Point.y)) })

/-- Normalize a list of raw lines in order; an exception anywhere discards
the whole batch (the Python list is local to the raising call). -/
def process_lines (language : String) : List RawLine → Except Unit (List DetectionRecord)
  | [] => .ok []
  | l :: ls =>
    match process_line language l with
    | .error e => .error e
    | .ok r =>
      match process_lines language ls with
      | .error e => .error e
      | .ok rest =>
        match r with
        | none => .ok rest
        | some d => .ok (d :: rest)

/-- `OCRProcessor._process_ocr_results`: an empty result, or a result whose
first element is `None` or empty, yields `[]`; otherwise the first element's
lines are normalized in order. -/
def process_ocr_results (ocr_result : RawResult) (language : String) :
    Except Unit (List DetectionRecord) :=
  match ocr_result with
  | [] => .ok []
  | none :: _ => .ok []
  | some [] :: _ => .ok []
  | some (l :: ls) :: _ => process_lines language (l :: ls)

/-- The outcome of one language's iteration of the `process_image` loop:
`none` when the engine invocation or the normalization raised (the language
is skipped), `some records` on success. -/
def language_success (env : Env) (image_path lang : String) :
    Option (List DetectionRecord) :=
  match env.engine lang image_path with
  | .error _ => none
  | .ok raw =>
    match process_ocr_results raw lang with
    | .error _ => none
    | .ok rs => rs

/-- The `for lang in languages_to_use` loop of `process_image`: each
language's engine is invoked; a raised exception is logged and the language
skipped; successful records are concatenated in order. -/
def collect_results (env : Env) (image_path : String) :
    List String → List DetectionRecord
  | [] => []
  | lang :: rest =>
    (language_success env image_path lang).getD [] ++
      collect_results env image_path rest

/-- `OCRProcessor.process_image`, instrumented with the list of languages
whose engines were invoked (second component).  Checks, in order: path
existence (`FileNotFoundError`), image validity (`ValueError`), then — only
when the `language` argument is truthy, i.e. present and nonempty — registry
membership (`ValueError` listing `list(self.ocr_models.keys())`); finally
runs the per-language loop over the selected languages. -/
def process_image_t (env : Env) (languages : List String) (image_path : String)
    (language : Option String) :
    Except OCRError (List DetectionRecord) × List String :=
  if env.path_exists image_path = false then
    (.error (.fileNotFound image_path), [])
  else if env.is_valid_image image_path = false then
    (.error (.invalidImage image_path), [])
  else
    match language with
    | some l =>
      if l = "" then
        (.ok (collect_results env image_path languages), languages)
      else if l ∈ first_occurrences languages then
        (.ok (collect_results env image_path [l]), [l])
      else
        (.error (.languageNotInitialized l (first_occurrences languages)), [])
    | none =>
      (.ok (collect_results env image_path languages), languages)

/-- `OCRProcessor.process_image`: the returned value, without the trace. -/
def process_image (env : Env) (languages : List String) (image_path : String)
    (language : Option String) : Except OCRError (List DetectionRecord) :=
  (process_image_t env languages image_path language).1

/-- The languages whose engine `.ocr` method was invoked during the call. -/
def engine_calls (env : Env) (languages : List String) (image_path : String)
    (language : Option String) : List String :=
  (process_image_t env languages image_path language).2

/-- `OCRProcessor.extract_text_only`: the `text` fields of the records whose
stripped text is nonempty, in order. -/
def extract_text_only (env : Env) (languages : List String) (image_path : String)
    (language : Option String) : Except OCRError (List String) :=
  (process_image env languages image_path language).map fun results =>
    (results.filter (fun r => r.text.trim ≠ "")).map (fun r => r.text)

/-- One `results_by_language[lang].append(result)` step, creating the key at
the end of the dict if absent. -/
def add_to_group (groups : List (String × List DetectionRecord))
    (r : DetectionRecord) : List (String × List DetectionRecord) :=
  if groups.any (fun kv => kv.1 = r.language) then
    groups.map (fun kv => if kv.1 = r.language then (kv.1, kv.2 ++ [r]) else kv)
  else
    groups ++ [(r.language, [r])]

/-- The `results_by_language` grouping loop of `get_detailed_results`. -/
def group_by_language (results : List DetectionRecord) :
    List (String × List DetectionRecord) :=
  results.foldl add_to_group []

/-- `OCRProcessor.get_detailed_results`: the canonical empty dictionary when
there are no records, else counts, detected languages, rounded mean
confidence, the records, the per-language grouping, and the summary line. -/
def get_detailed_results (env : Env) (languages : List String)
    (image_path : String) (language : Option String) :
    Except OCRError DetailedResults :=
  (process_image env languages image_path language).map fun results =>
    if results = [] then
      { text_count := 0
        languages_detected := []
        average_confidence := 0
        results := []
        results_by_language := none
        summary := "No text detected" }
    else
      let text_count := results.length
      let languages_detected := first_occurrences (results.map (fun r => r.language))
      let confidences := results.map (fun r => r.confidence)
      let average_confidence := confidences.sum / (confidences.length : Rat)
      { text_count := text_count
        languages_detected := languages_detected
        average_confidence := py_round3 average_confidence
        results := results
        results_by_language := some (group_by_language results)
        summary := "Detected " ++ toString text_count ++ " text elements in " ++
          toString languages_detected.length ++ " languages with " ++
          format_pct1 average_confidence ++ " average confidence" }

/-! ### Shared environments and helper lemmas -/

/-- An environment in which no path exists. -/
def env_no_file : Env :=
  { path_exists := fun _ => false
    is_valid_image := fun _ => false
    engine := fun _ _ => .ok [] }

/-- An environment in which every path exists but no file is a decodable
image. -/
def env_bad_image : Env :=
  { path_exists := fun _ => true
    is_valid_image := fun _ => false
    engine := fun _ _ => .ok [] }

/-- An environment with valid images in which every engine invocation
succeeds with zero detections. -/
def env_no_text : Env :=
  { path_exists := fun _ => true
    is_valid_image := fun _ => true
    engine := fun _ _ => .ok [] }

theorem mem_foldl_insert_key (l acc : List String) (x : String) :
    x ∈ l.foldl insert_key acc ↔ x ∈ acc ∨ x ∈ l := by
  induction l generalizing acc with
  | nil => simp
  | cons a t ih =>
    rw [List.foldl_cons, ih]
    unfold insert_key
    by_cases h : a ∈ acc
    · simp only [if_pos h, List.mem_cons]
      constructor
      · tauto
      · rintro (hx | hx | hx) <;> [exact Or.inl hx; exact Or.inl (hx ▸ h); exact Or.inr hx]
    · simp only [if_neg h, List.mem_append, List.mem_singleton, List.mem_cons]
      tauto

theorem mem_first_occurrences (l : List String) (x : String) :
    x ∈ first_occurrences l ↔ x ∈ l := by
  simp [first_occurrences, mem_foldl_insert_key]

/-! ### C7: precondition failures happen before any engine invocation -/

/-- C7: for every image path that does not exist, `process_image` (and hence
both query facades) fails with `FileNotFoundError` with no engine invoked;
for a path that exists but is not a decodable image it fails with the
distinct invalid-image `ValueError`, again with no engine invoked. -/
theorem C7_precondition_failures (env : Env) (languages : List String)
    (image_path : String) (language : Option String) :
    (env.path_exists image_path = false →
      process_image_t env languages image_path language =
        (.error (.fileNotFound image_path), []) ∧
      extract_text_only env languages image_path language =
        .error (.fileNotFound image_path) ∧
      get_detailed_results env languages image_path language =
        .error (.fileNotFound image_path)) ∧
    (env.path_exists image_path = true →
      env.is_valid_image image_path = false →
      process_image_t env languages image_path language =
        (.error (.invalidImage image_path), []) ∧
      extract_text_only env languages image_path language =
        .error (.invalidImage image_path) ∧
      get_detailed_results env languages image_path language =
        .error (.invalidImage image_path)) := by
  constructor
  · intro h
    refine ⟨by simp [process_image_t, h], ?_, ?_⟩ <;>
      simp [extract_text_only, get_detailed_results, process_image,
        process_image_t, h, Except.map]
  · intro h1 h2
    refine ⟨by simp [process_image_t, h1, h2], ?_, ?_⟩ <;>
      simp [extract_text_only, get_detailed_results, process_image,
        process_image_t, h1, h2, Except.map]

/-- C7 witness: concrete environments exercising both failure branches. -/
theorem C7_precondition_failures_witness :
    (process_image_t env_no_file ["en", "hi"] "img.png" none =
      (.error (.fileNotFound "img.png"), []) ∧
     extract_text_only env_no_file ["en", "hi"] "img.png" none =
      .error (.fileNotFound "img.png") ∧
     get_detailed_results env_no_file ["en", "hi"] "img.png" none =
      .error (.fileNotFound "img.png")) ∧
    (process_image_t env_bad_image ["en", "hi"] "img.png" none =
      (.error (.invalidImage "img.png"), []) ∧
     extract_text_only env_bad_image ["en", "hi"] "img.png" none =
      .error (.invalidImage "img.png") ∧
     get_detailed_results env_bad_image ["en", "hi"] "img.png" none =
      .error (.invalidImage "img.png")) :=
  ⟨(C7_precondition_failures env_no_file ["en", "hi"] "img.png" none).1 rfl,
   (C7_precondition_failures env_bad_image ["en", "hi"] "img.png" none).2 rfl rfl⟩

/-! ### C8: uninitialized explicit language -/

/-- C8 (amended): for every valid existing image and every explicit
*nonempty* language argument that is not a key of the model registry, the
query fails with the language-not-initialized error whose payload is
`list(self.ocr_models.keys())` — exactly the distinct initialized codes —
and no engine is invoked.  (An explicit empty-string argument is falsy in
Python and instead selects all configured languages.) -/
theorem C8_language_not_initialized (env : Env) (languages : List String)
    (image_path lang : String)
    (h1 : env.path_exists image_path = true)
    (h2 : env.is_valid_image image_path = true)
    (h3 : lang ≠ "")
    (h4 : lang ∉ first_occurrences languages) :
    process_image_t env languages image_path (some lang) =
      (.error (.languageNotInitialized lang (first_occurrences languages)), []) ∧
    (∀ s, s ∈ first_occurrences languages ↔ s ∈ languages) := by
  refine ⟨?_, fun s => mem_first_occurrences languages s⟩
  simp [process_image_t, h1, h2, h3, h4]

/-- C8 witness: querying `"fr"` against a registry holding `en` and `hi`. -/
theorem C8_language_not_initialized_witness :
    process_image_t env_no_text ["en", "hi"] "img.png" (some "fr") =
      (.error (.languageNotInitialized "fr" (first_occurrences ["en", "hi"])), []) ∧
    (∀ s, s ∈ first_occurrences ["en", "hi"] ↔ s ∈ ["en", "hi"]) :=
  C8_language_not_initialized env_no_text ["en", "hi"] "img.png" "fr" rfl rfl
    (by decide) (by decide)

/-- C8 counterexample: the empty string is an explicit language argument
that is not a registry key, yet — because `if language:` treats `""` as
falsy — the call does not fail: it runs all configured languages and here
returns `Except.ok []`. -/
theorem C8_counterexample :
    ("" ∈ first_occurrences ["en"] → False) ∧
    process_image env_no_text ["en"] "img.png" (some "") = .ok [] ∧
    engine_calls env_no_text ["en"] "img.png" (some "") = ["en"] := by
  exact ⟨by decide, rfl, rfl⟩

/-! ### C9: malformed-input tolerance of the normalizer -/

theorem process_ocr_results_some (language : String) (lines : List RawLine)
    (rest : RawResult) :
    process_ocr_results (some lines :: rest) language =
      process_lines language lines := by
  cases lines with
  | nil => rfl
  | cons l ls => rfl

theorem process_lines_malformed_middle (language : String)
    (ls1 ls2 : List RawLine) :
    process_lines language (ls1 ++ RawLine.malformed :: ls2) =
      process_lines language (ls1 ++ ls2) := by
  induction ls1 with
  | nil =>
    show process_lines language (RawLine.malformed :: ls2) = process_lines language ls2
    simp [process_lines, process_line]
    cases process_lines language ls2 <;> rfl
  | cons l t ih =>
    show process_lines language (l :: (t ++ RawLine.malformed :: ls2)) =
      process_lines language (l :: (t ++ ls2))
    simp only [process_lines, ih]

/-- C9: an empty raw result, or one whose first element is `None` or the
empty list, normalizes to the empty record list without error; and a raw
line with fewer than two sub-fields is skipped while every other line is
still normalized. -/
theorem C9_defensive_normalization (language : String) :
    (process_ocr_results [] language = .ok []) ∧
    (∀ rest : RawResult, process_ocr_results (none :: rest) language = .ok []) ∧
    (∀ rest : RawResult, process_ocr_results (some [] :: rest) language = .ok []) ∧
    (∀ (ls1 ls2 : List RawLine) (rest : RawResult),
      process_ocr_results (some (ls1 ++ RawLine.malformed :: ls2) :: rest) language =
        process_ocr_results (some (ls1 ++ ls2) :: rest) language) := by
  refine ⟨rfl, fun _ => rfl, fun _ => rfl, fun ls1 ls2 rest => ?_⟩
  rw [process_ocr_results_some, process_ocr_results_some,
    process_lines_malformed_middle]

/-! ### C4: the normalizer's geometry and confidence handling -/

/-- C4: a well-formed raw line with a 4-point polygon and a
(text, confidence) pair normalizes to one record whose center is the
arithmetic mean of the four points, whose dimensions are the axis-aligned
extents (max − min per coordinate), and whose confidence is the supplied
value; a line carrying a bare text value with no confidence gets
confidence 1.0. -/
theorem C4_normalizer_geometry (language text asString : String)
    (confidence : Rat) (p1 p2 p3 p4 : Point) :
    process_ocr_results [some [.valid [p1, p2, p3, p4] (.pair text confidence)]]
        language =
      .ok [{ text := text
             confidence := confidence
             language := language
             bbox := [p1, p2, p3, p4]
             center := ((p1.x + p2.x + p3.x + p4.x) / 4,
                        (p1.y + p2.y + p3.y + p4.y) / 4)
             dimensions :=
               (max (max (max p1.x p2.x) p3.x) p4.x -
                  min (min (min p1.x p2.x) p3.x) p4.x,
                max (max (max p1.y p2.y) p3.y) p4.y -
                  min (min (min p1.y p2.y) p3.y) p4.y) }] ∧
    process_ocr_results [some [.valid [p1, p2, p3, p4] (.bare asString)]]
        language =
      .ok [{ text := asString
             confidence := 1
             language := language
             bbox := [p1, p2, p3, p4]
             center := ((p1.x + p2.x + p3.x + p4.x) / 4,
                        (p1.y + p2.y + p3.y + p4.y) / 4)
             dimensions :=
               (max (max (max p1.x p2.x) p3.x) p4.x -
                  min (min (min p1.x p2.x) p3.x) p4.x,
                max (max (max p1.y p2.y) p3.y) p4.y -
                  min (min (min p1.y p2.y) p3.y) p4.y) }] := by
  constructor <;>
    · simp only [process_ocr_results, process_lines, process_line, list_max,
        list_min, List.map, List.sum_cons, List.sum_nil, List.length_cons,
        List.length_nil, List.foldl, Except.bind]
      norm_num
      ring_nf
      exact ⟨trivial, trivial⟩

/-! ### C2, C10: the canonical empty result and the shape difference -/

/-- The canonical zero-record dictionary returned by `get_detailed_results`;
note the absent `results_by_language` key. -/
def empty_detailed : DetailedResults :=
  { text_count := 0
    languages_detected := []
    average_confidence := 0
    results := []
    results_by_language := none
    summary := "No text detected" }

/-- C2: whenever processing a valid existing image yields zero detection
records, `get_detailed_results` returns exactly the canonical empty object
(`text_count = 0`, no languages, `average_confidence = 0.0`, no results,
summary "No text detected") and `extract_text_only` returns the empty
sequence. -/
theorem C2_canonical_empty (env : Env) (languages : List String)
    (image_path : String) (language : Option String)
    (h : process_image env languages image_path language = .ok []) :
    get_detailed_results env languages image_path language = .ok empty_detailed ∧
    extract_text_only env languages image_path language = .ok [] := by
  constructor
  · simp [get_detailed_results, h, empty_detailed, Except.map]
  · simp [extract_text_only, h, Except.map]

/-- C2 witness: an engine that finds no text in a valid image. -/
theorem C2_canonical_empty_witness :
    get_detailed_results env_no_text ["en"] "img.png" none = .ok empty_detailed ∧
    extract_text_only env_no_text ["en"] "img.png" none = .ok [] :=
  C2_canonical_empty env_no_text ["en"] "img.png" none rfl

/-- C10: a successfully returned detailed dictionary carries the
`results_by_language` key exactly when at least one record was produced —
the empty and non-empty shapes differ, not just the values. -/
theorem C10_results_by_language_shape (env : Env) (languages : List String)
    (image_path : String) (language : Option String) (d : DetailedResults)
    (h : get_detailed_results env languages image_path language = .ok d) :
    d.results_by_language.isSome = true ↔ d.results ≠ [] := by
  unfold get_detailed_results at h
  cases hp : process_image env languages image_path language with
  | error e =>
    rw [hp] at h
    exact absurd h (by simp [Except.map])
  | ok results =>
    rw [hp] at h
    simp only [Except.map, Except.ok.injEq] at h
    subst h
    by_cases hres : results = [] <;> simp [hres]

/-- C10 witness: the canonical empty dictionary omits the key, matching its
empty result list. -/
theorem C10_results_by_language_shape_witness :
    empty_detailed.results_by_language.isSome = true ↔
      empty_detailed.results ≠ [] :=
  C10_results_by_language_shape env_no_text ["en"] "img.png" none
    empty_detailed rfl

/-! ### C3: extract_text_only is the non-empty-text projection -/

/-- C3: for every image path and optional language argument,
`extract_text_only` returns exactly the `text` fields of those records of
`get_detailed_results(...)["results"]` whose text is nonempty after
stripping whitespace, in detection order (and the two operations fail
identically when processing fails). -/
theorem C3_text_projection (env : Env) (languages : List String)
    (image_path : String) (language : Option String) :
    extract_text_only env languages image_path language =
      (get_detailed_results env languages image_path language).map
        (fun d => (d.results.filter (fun r => r.text.trim ≠ "")).map
          (fun r => r.text)) := by
  unfold extract_text_only get_detailed_results
  cases process_image env languages image_path language with
  | error e => rfl
  | ok results =>
    by_cases h : results = [] <;> simp [Except.map, h]

/-! ### C1: per-language failure isolation -/

theorem except_map_ok {α β ε : Type} (f : α → β) (x : Except ε α) (v : α)
    (h : x = .ok v) : x.map f = .ok (f v) := by
  rw [h]
  rfl

theorem collect_results_eq_join (env : Env) (image_path : String)
    (langs : List String) :
    collect_results env image_path langs =
      (langs.map (fun l => (language_success env image_path l).getD [])).flatten := by
  induction langs with
  | nil => rfl
  | cons a t ih => simp [collect_results, ih]

/-- C1: on a multi-language query (no language argument) over a valid
existing image, if some selected language's engine invocation raises while
another selected language fully succeeds, `process_image` still returns
normally — every failed language contributes nothing and the result is
exactly the concatenation, in configuration order, of the normalized
records of the languages that succeeded — and both query facades succeed
as well. -/
theorem C1_failure_isolation (env : Env) (languages : List String)
    (image_path : String)
    (h1 : env.path_exists image_path = true)
    (h2 : env.is_valid_image image_path = true)
    (hfail : ∃ la ∈ languages, ∃ e, env.engine la image_path = .error e)
    (hsucc : ∃ lb ∈ languages, ∃ rs, env.engine lb image_path = .ok rs ∧
      process_ocr_results rs lb = .ok ((language_success env image_path lb).getD [])) :
    process_image env languages image_path none =
      .ok ((languages.map
        (fun l => (language_success env image_path l).getD [])).flatten) ∧
    (∀ la ∈ languages, (∃ e, env.engine la image_path = .error e) →
      language_success env image_path la = none) ∧
    (∃ ts, extract_text_only env languages image_path none = .ok ts) ∧
    (∃ d, get_detailed_results env languages image_path none = .ok d) := by
  have hmain : process_image env languages image_path none =
      .ok ((languages.map
        (fun l => (language_success env image_path l).getD [])).flatten) := by
    simp [process_image, process_image_t, h1, h2, collect_results_eq_join]
  refine ⟨hmain, ?_, ?_, ?_⟩
  · rintro la _ ⟨e, he⟩
    simp [language_success, he]
  · exact ⟨_, except_map_ok _ _ _ hmain⟩
  · exact ⟨_, except_map_ok _ _ _ hmain⟩

/-- An environment whose `en` engine raises while the `hi` engine finds one
record. -/
def env_mixed : Env :=
  { path_exists := fun _ => true
    is_valid_image := fun _ => true
    engine := fun lang _ =>
      if lang = "en" then .error ()
      else .ok [some [.valid [⟨0, 0⟩, ⟨4, 0⟩, ⟨4, 2⟩, ⟨0, 2⟩]
        (.pair "नमस्ते" (88/100))]] }

/-- C1 witness: `en` raises, `hi` succeeds, and the call returns exactly
`hi`'s records. -/
theorem C1_failure_isolation_witness :
    process_image env_mixed ["en", "hi"] "img.png" none =
      .ok ((["en", "hi"].map
        (fun l => (language_success env_mixed "img.png" l).getD [])).flatten) ∧
    (∀ la ∈ ["en", "hi"], (∃ e, env_mixed.engine la "img.png" = .error e) →
      language_success env_mixed "img.png" la = none) ∧
    (∃ ts, extract_text_only env_mixed ["en", "hi"] "img.png" none = .ok ts) ∧
    (∃ d, get_detailed_results env_mixed ["en", "hi"] "img.png" none = .ok d) :=
  C1_failure_isolation env_mixed ["en", "hi"] "img.png" rfl rfl
    ⟨"en", by simp, (), rfl⟩
    ⟨"hi", by simp, _, rfl, rfl⟩

/-! ### C6: record invariants -/

theorem le_foldl_max (a : Rat) (l : List Rat) : a ≤ l.foldl max a := by
  induction l generalizing a with
  | nil => exact le_refl a
  | cons x t ih => exact le_trans (le_max_left a x) (ih (max a x))

theorem foldl_min_le (a : Rat) (l : List Rat) : l.foldl min a ≤ a := by
  induction l generalizing a with
  | nil => exact le_refl a
  | cons x t ih => exact le_trans (ih (min a x)) (min_le_left a x)

theorem list_min_le_list_max (a : Rat) (l : List Rat) :
    list_min a l ≤ list_max a l :=
  le_trans (foldl_min_le a l) (le_foldl_max a l)

/-- Whether a raw line's explicit `(text, confidence)` pair (if any) carries
a confidence in `[0,1]`; lines with no explicit confidence are unconstrained
since the code substitutes 1.0 for them. -/
def pair_conf_in_unit : RawLine → Bool
  | .valid _ (.pair _ c) => decide (0 ≤ c ∧ c ≤ 1)
  | _ => true

/-- Whether every explicit confidence in a raw engine result is in `[0,1]`
(the engine's documented contract). -/
def raw_conf_bounded (raw : RawResult) : Bool :=
  raw.all fun entry =>
    match entry with
    | none => true
    | some ls => ls.all pair_conf_in_unit

theorem process_line_ok_props (language : String) (line : RawLine)
    (r : DetectionRecord) (h : process_line language line = .ok (some r)) :
    0 ≤ r.dimensions.1 ∧ 0 ≤ r.dimensions.2 ∧
      (pair_conf_in_unit line = true → 0 ≤ r.confidence ∧ r.confidence ≤ 1) := by
  cases line with
  | malformed => simp [process_line] at h
  | valid bbox info =>
    cases bbox with
    | nil => simp [process_line] at h
    | cons p ps =>
      simp only [process_line, Except.ok.injEq, Option.some.injEq] at h
      subst h
      refine ⟨?_, ?_, ?_⟩
      · simpa using sub_nonneg.mpr (list_min_le_list_max p.x (ps.map Point.x))
      · simpa using sub_nonneg.mpr (list_min_le_list_max p.y (ps.map Point.y))
      · intro hc
        cases info with
        | pair t c =>
          simp only [pair_conf_in_unit, decide_eq_true_eq] at hc
          simpa using hc
        | bare s => simp

theorem process_lines_mem (language : String) (ls : List RawLine)
    (recs : List DetectionRecord) (h : process_lines language ls = .ok recs)
    (r : DetectionRecord) (hr : r ∈ recs) :
    ∃ l ∈ ls, process_line language l = .ok (some r) := by
  induction ls generalizing recs with
  | nil =>
    simp only [process_lines, Except.ok.injEq] at h
    subst h
    simp at hr
  | cons l t ih =>
    cases hl : process_line language l with
    | error e => simp [process_lines, hl] at h
    | ok o =>
      cases ht : process_lines language t with
      | error e => simp [process_lines, hl, ht] at h
      | ok rest =>
        cases o with
        | none =>
          simp only [process_lines, hl, ht, Except.ok.injEq] at h
          subst h
          obtain ⟨l', hl', hp⟩ := ih rest ht hr
          exact ⟨l', List.mem_cons_of_mem l hl', hp⟩
        | some d =>
          simp only [process_lines, hl, ht, Except.ok.injEq] at h
          subst h
          rcases List.mem_cons.mp hr with hrd | hrt
          · exact ⟨l, List.mem_cons_self l t, hrd ▸ hl⟩
          · obtain ⟨l', hl', hp⟩ := ih rest ht hrt
            exact ⟨l', List.mem_cons_of_mem l hl', hp⟩

/-- C6 (amended): every record produced by the normalizer has nonnegative
dimensions, and — provided every explicit confidence in the raw engine
output lies in `[0,1]`, the engine's contract — every record's confidence
lies in `[0,1]`.  (The code itself never clamps: an out-of-range engine
confidence is passed through, see the counterexample.) -/
theorem C6_record_invariants (raw : RawResult) (language : String)
    (recs : List DetectionRecord)
    (h : process_ocr_results raw language = .ok recs) :
    (∀ r ∈ recs, 0 ≤ r.dimensions.1 ∧ 0 ≤ r.dimensions.2) ∧
    (raw_conf_bounded raw = true →
      ∀ r ∈ recs, 0 ≤ r.confidence ∧ r.confidence ≤ 1) := by
  match raw, h with
  | [], h =>
    simp only [process_ocr_results, Except.ok.injEq] at h
    subst h
    simp
  | none :: rest, h =>
    simp only [process_ocr_results, Except.ok.injEq] at h
    subst h
    simp
  | some [] :: rest, h =>
    simp only [process_ocr_results, Except.ok.injEq] at h
    subst h
    simp
  | some (l :: ls) :: rest, h =>
    rw [process_ocr_results_some] at h
    constructor
    · intro r hr
      obtain ⟨l', _, hp⟩ := process_lines_mem language (l :: ls) recs h r hr
      exact ⟨(process_line_ok_props language l' r hp).1,
        (process_line_ok_props language l' r hp).2.1⟩
    · intro hb r hr
      obtain ⟨l', hl', hp⟩ := process_lines_mem language (l :: ls) recs h r hr
      refine (process_line_ok_props language l' r hp).2.2 ?_
      simp only [raw_conf_bounded, List.all_cons, Bool.and_eq_true,
        List.all_eq_true] at hb
      rcases List.mem_cons.mp hl' with h1 | h1
      · exact h1 ▸ hb.1.1
      · exact hb.1.2 l' h1

/-- A well-formed raw result whose single line carries confidence 0.95. -/
def raw_in_range : RawResult :=
  [some [.valid [⟨0, 0⟩, ⟨4, 0⟩, ⟨4, 2⟩, ⟨0, 2⟩] (.pair "Hello" (95/100))]]

/-- The record `raw_in_range` normalizes to. -/
def rec_in_range : DetectionRecord :=
  { text := "Hello"
    confidence := 95/100
    language := "en"
    bbox := [⟨0, 0⟩, ⟨4, 0⟩, ⟨4, 2⟩, ⟨0, 2⟩]
    center := (2, 1)
    dimensions := (4, 2) }

/-- C6 witness: a concrete in-range raw result satisfies both invariants. -/
theorem C6_record_invariants_witness :
    (∀ r ∈ [rec_in_range], 0 ≤ r.dimensions.1 ∧ 0 ≤ r.dimensions.2) ∧
    (raw_conf_bounded raw_in_range = true →
      ∀ r ∈ [rec_in_range], 0 ≤ r.confidence ∧ r.confidence ≤ 1) :=
  C6_record_invariants raw_in_range "en" [rec_in_range] (by
    simp only [raw_in_range, rec_in_range, process_ocr_results, process_lines,
      process_line, list_max, list_min, List.map, List.foldl, List.sum_cons,
      List.sum_nil, List.length_cons, List.length_nil]
    norm_num)

/-- A raw result whose line carries the out-of-range confidence 2. -/
def raw_out_of_range : RawResult :=
  [some [.valid [⟨0, 0⟩, ⟨1, 0⟩, ⟨1, 1⟩, ⟨0, 1⟩] (.pair "x" 2)]]

/-- C6 counterexample: the code performs no clamping, so a raw engine
confidence of 2 yields a record whose confidence is 2, outside `[0,1]`. -/
theorem C6_counterexample :
    process_ocr_results raw_out_of_range "en" =
      .ok [{ text := "x"
             confidence := 2
             language := "en"
             bbox := [⟨0, 0⟩, ⟨1, 0⟩, ⟨1, 1⟩, ⟨0, 1⟩]
             center := (1/2, 1/2)
             dimensions := (1, 1) }] ∧
    ¬ ((2 : Rat) ≤ 1) := by
  refine ⟨?_, by norm_num⟩
  simp only [raw_out_of_range, process_ocr_results, process_lines,
    process_line, list_max, list_min, List.map, List.foldl, List.sum_cons,
    List.sum_nil, List.length_cons, List.length_nil]
  norm_num

/-! ### C5: statistics of the non-empty detailed result -/

theorem list_any_map_general {α β : Type} (l : List α) (f : α → β)
    (p : β → Bool) : (l.map f).any p = l.any (p ∘ f) := by
  induction l with
  | nil => rfl
  | cons a t ih => simp [ih]

theorem first_occurrences_concat (l : List String) (x : String) :
    first_occurrences (l ++ [x]) = insert_key (first_occurrences l) x := by
  simp [first_occurrences, List.foldl_append]

theorem group_by_language_concat (rs : List DetectionRecord)
    (r : DetectionRecord) :
    group_by_language (rs ++ [r]) = add_to_group (group_by_language rs) r := by
  simp [group_by_language, List.foldl_append]

/-- The grouping loop builds, in first-occurrence key order, the full
per-language sublists of the record list. -/
theorem group_by_language_eq (rs : List DetectionRecord) :
    group_by_language rs =
      (first_occurrences (rs.map (fun r => r.language))).map
        (fun l => (l, rs.filter (fun r => r.language = l))) := by
  induction rs using List.reverseRecOn with
  | nil => rfl
  | append_singleton rs r ih =>
    rw [group_by_language_concat, ih, List.map_append, List.map_singleton,
      first_occurrences_concat]
    by_cases hmem : r.language ∈ first_occurrences (rs.map (fun r => r.language))
    · have hany : ((first_occurrences (rs.map (fun r => r.language))).map
          (fun l => (l, rs.filter (fun r' => r'.language = l)))).any
            (fun kv => kv.1 = r.language) = true := by
        rw [list_any_map_general]
        exact List.any_eq_true.mpr ⟨r.language, hmem, by simp⟩
      rw [add_to_group, if_pos hany, insert_key, if_pos hmem, List.map_map]
      refine List.map_congr_left fun l _ => ?_
      by_cases hl : l = r.language
      · subst hl
        simp [List.filter_append]
      · have : ¬ (r.language = l) := fun hh => hl hh.symm
        simp [List.filter_append, hl, this]
    · have hany : ((first_occurrences (rs.map (fun r => r.language))).map
          (fun l => (l, rs.filter (fun r' => r'.language = l)))).any
            (fun kv => kv.1 = r.language) = false := by
        rw [list_any_map_general]
        simp only [List.any_eq_false]
        intro l hl
        simp only [Function.comp_apply, decide_eq_true_eq]
        exact fun hh => hmem (hh ▸ hl)
      rw [add_to_group, if_neg (by simp [hany]), insert_key, if_neg hmem,
        List.map_append, List.map_singleton]
      have hfilter_rs : rs.filter (fun r' => r'.language = r.language) = [] := by
        refine List.filter_eq_nil_iff.mpr fun a ha => ?_
        simp only [decide_eq_true_eq]
        intro hh
        exact hmem ((mem_first_occurrences _ _).mpr (List.mem_map.mpr ⟨a, ha, hh⟩))
      congr 1
      · refine List.map_congr_left fun l hl => ?_
        have hne : ¬ (r.language = l) := fun hh => hmem (hh ▸ hl)
        simp [List.filter_append, hne]
      · simp [List.filter_append, hfilter_rs]

/-- C5 (amended): for every successfully returned non-empty result set,
`text_count` is the number of records, `languages_detected` is (as a set)
exactly the languages contributing at least one record, `average_confidence`
is the arithmetic mean of the confidences *rounded to three decimal places,
ties to even* (Python's `round(x, 3)`), and `results_by_language` groups the
records under their languages: its keys are the contributing languages in
first-occurrence order and each key maps to exactly the records of that
language, in detection order. -/
theorem C5_statistics (env : Env) (languages : List String)
    (image_path : String) (language : Option String) (d : DetailedResults)
    (h : get_detailed_results env languages image_path language = .ok d)
    (hne : d.results ≠ []) :
    d.text_count = d.results.length ∧
    (∀ s, s ∈ d.languages_detected ↔ ∃ r ∈ d.results, r.language = s) ∧
    d.average_confidence =
      py_round3 ((d.results.map (fun r => r.confidence)).sum /
        (d.results.length : Rat)) ∧
    d.results_by_language =
      some ((first_occurrences (d.results.map (fun r => r.language))).map
        (fun l => (l, d.results.filter (fun r => r.language = l)))) := by
  unfold get_detailed_results at h
  cases hp : process_image env languages image_path language with
  | error e =>
    rw [hp] at h
    exact absurd h (by simp [Except.map])
  | ok results =>
    rw [hp] at h
    simp only [Except.map, Except.ok.injEq] at h
    subst h
    by_cases hres : results = []
    · rw [if_pos hres] at hne
      exact absurd rfl hne
    · simp only [if_neg hres]
      refine ⟨by trivial, ?_, ?_, ?_⟩
      · intro s
        rw [mem_first_occurrences]
        simp [List.mem_map]
      · rw [List.length_map]
      · rw [group_by_language_eq]

theorem round_half_even_intCast (n : Int) : round_half_even (n : Rat) = n := by
  rw [round_half_even]
  norm_num

/-- A valid-image environment whose engine finds one record with
confidence 0.5. -/
def env_one : Env :=
  { path_exists := fun _ => true
    is_valid_image := fun _ => true
    engine := fun _ _ =>
      .ok [some [.valid [⟨0, 0⟩, ⟨2, 0⟩, ⟨2, 2⟩, ⟨0, 2⟩] (.pair "Hello" (1/2))]] }

/-- The record `env_one`'s engine output normalizes to. -/
def rec_one : DetectionRecord :=
  { text := "Hello"
    confidence := 1/2
    language := "en"
    bbox := [⟨0, 0⟩, ⟨2, 0⟩, ⟨2, 2⟩, ⟨0, 2⟩]
    center := (1, 1)
    dimensions := (2, 2) }

theorem process_image_env_one :
    process_image env_one ["en"] "img.png" none = .ok [rec_one] := by
  simp only [process_image, process_image_t, env_one, collect_results,
    language_success, process_ocr_results, process_lines, process_line,
    list_max, list_min, List.map, List.foldl, List.sum_cons, List.sum_nil,
    List.length_cons, List.length_nil, rec_one]
  norm_num [max_def, min_def]

/-- The detailed dictionary for `env_one`'s single record. -/
def d_one : DetailedResults :=
  { text_count := 1
    languages_detected := ["en"]
    average_confidence := 1/2
    results := [rec_one]
    results_by_language := some [("en", [rec_one])]
    summary :=
      "Detected 1 text elements in 1 languages with 50.0% average confidence" }

theorem get_detailed_env_one :
    get_detailed_results env_one ["en"] "img.png" none = .ok d_one := by
  unfold get_detailed_results
  rw [process_image_env_one]
  have hmean : (([rec_one].map (fun r => r.confidence)).sum /
      (([rec_one].map (fun r => r.confidence)).length : Rat)) = 1/2 := by
    simp [rec_one]
  have h500 : round_half_even ((1:Rat)/2 * 1000) = 500 := by
    rw [show ((1:Rat)/2 * 1000) = ((500 : Int) : Rat) by norm_num]
    exact round_half_even_intCast 500
  simp only [Except.map]
  rw [if_neg (by simp)]
  rw [hmean]
  simp only [d_one, Except.ok.injEq, DetailedResults.mk.injEq]
  refine ⟨by simp, ?_, ?_, by trivial, ?_, ?_⟩
  · simp [rec_one, first_occurrences, insert_key]
  · rw [py_round3, h500]
    norm_num
  · rw [group_by_language_eq]
    simp [rec_one, first_occurrences, insert_key]
  · simp only [format_pct1, h500]
    norm_num
    rfl

/-- C5 witness: the statistics hold for the concrete one-record result of
`env_one`. -/
theorem C5_statistics_witness :
    d_one.text_count = d_one.results.length ∧
    (∀ s, s ∈ d_one.languages_detected ↔ ∃ r ∈ d_one.results, r.language = s) ∧
    d_one.average_confidence =
      py_round3 ((d_one.results.map (fun r => r.confidence)).sum /
        (d_one.results.length : Rat)) ∧
    d_one.results_by_language =
      some ((first_occurrences (d_one.results.map (fun r => r.language))).map
        (fun l => (l, d_one.results.filter (fun r => r.language = l)))) :=
  C5_statistics env_one ["en"] "img.png" none d_one get_detailed_env_one
    (by simp [d_one])

/-- A valid-image environment whose engine finds one record with
confidence 1/3, whose decimal expansion is not finite. -/
def env_conf_third : Env :=
  { path_exists := fun _ => true
    is_valid_image := fun _ => true
    engine := fun _ _ =>
      .ok [some [.valid [⟨0, 0⟩, ⟨2, 0⟩, ⟨2, 2⟩, ⟨0, 2⟩] (.pair "x" (1/3))]] }

/-- The record `env_conf_third`'s engine output normalizes to. -/
def rec_third : DetectionRecord :=
  { text := "x"
    confidence := 1/3
    language := "en"
    bbox := [⟨0, 0⟩, ⟨2, 0⟩, ⟨2, 2⟩, ⟨0, 2⟩]
    center := (1, 1)
    dimensions := (2, 2) }

theorem process_image_env_conf_third :
    process_image env_conf_third ["en"] "img.png" none = .ok [rec_third] := by
  simp only [process_image, process_image_t, env_conf_third, collect_results,
    language_success, process_ocr_results, process_lines, process_line,
    list_max, list_min, List.map, List.foldl, List.sum_cons, List.sum_nil,
    List.length_cons, List.length_nil, rec_third]
  norm_num [max_def, min_def]

/-- C5 counterexample: with a single confidence of 1/3, the stored
`average_confidence` is `round(1/3, 3) = 0.333`, which differs from the
arithmetic mean 1/3 — the claim's unrounded equality is false. -/
theorem C5_counterexample :
    (get_detailed_results env_conf_third ["en"] "img.png" none).toOption.map
        (fun d => (d.average_confidence,
          (d.results.map (fun r => r.confidence)).sum /
            (d.results.length : Rat))) =
      some (333/1000, 1/3) ∧
    ((333 : Rat)/1000) ≠ 1/3 := by
  constructor
  · unfold get_detailed_results
    rw [process_image_env_conf_third]
    have hmean : (([rec_third].map (fun r => r.confidence)).sum /
        (([rec_third].map (fun r => r.confidence)).length : Rat)) = 1/3 := by
      simp [rec_third]
    have h333 : round_half_even ((1:Rat)/3 * 1000) = 333 := by
      rw [round_half_even, show ((1:Rat)/3 * 1000) = 1000/3 by norm_num]
      have hf : ⌊(1000:Rat)/3⌋ = 333 := by norm_num
      rw [hf]
      norm_num
    simp only [Except.map, Except.toOption]
    rw [if_neg (by simp)]
    simp only [Option.map, hmean]
    rw [py_round3, h333]
    have : (([rec_third].map (fun r => r.confidence)).sum /
        (([rec_third].length : Nat) : Rat)) = 1/3 := by
      simp [rec_third]
    rw [this]
    norm_num
  · norm_num
